import Mathlib

/-!
Verification development for the `PupilTracker` image-processing class of
`PupilTrackerGUI.py` (RabbitPupilTracker).

The tracker's own control logic (geometric filtering of contour candidates,
region-of-interest bookkeeping, candidate selection, error handling and the
tracking loop) is embedded shallowly.  The OpenCV library calls the code
delegates to (blurring, thresholding, morphology, contour extraction,
contour measurements, drawing) are external collaborators: they are
modelled as an explicit record of functions (`CVO`) over which all theorems
quantify.  Machine floats are modelled as exact rationals; `np.pi` is the
exact rational value of the IEEE-754 double that `numpy` supplies.
-/

namespace PupilTrack

/-- A pixel coordinate (x, y), as used by OpenCV contours. -/
abbrev Pt := Int × Int

/-- An axis-aligned rectangle `[(x1, y1), (x2, y2)]` (top-left, bottom-right),
the representation the tracker stores in `roi_pupil` / `roi_refle`. -/
abbrev Rect := Pt × Pt

/-- A BGR image: a grid of pixels (row-major, one triple per pixel). -/
abbrev Image := List (List (Nat × Nat × Nat))

/-- Result of `cv2.fitEllipse`: `((cx, cy), (major, minor), angle)`. -/
structure Ellipse where
  cx : ℚ
  cy : ℚ
  major : ℚ
  minor : ℚ
  angle : ℚ
deriving DecidableEq

/-- Result of `cv2.minAreaRect`: `((cx, cy), (w, h), angle)`. -/
structure RotRect where
  cx : ℚ
  cy : ℚ
  w : ℚ
  h : ℚ
  angle : ℚ
deriving DecidableEq

/-- The OpenCV collaborator functions used by `PupilTracker`, abstracted as
an oracle record.  The tracker's logic is parametric in these. -/
structure CVO where
  /-- `cv2.resize(img, (0, 0), fx=0.5, fy=0.5)` -/
  resize_half : Image → Image
  /-- `cv2.GaussianBlur(img, (5, 5), 0)` -/
  gaussianBlur : Image → Image
  /-- `cv2.cvtColor(img, cv2.COLOR_BGR2GRAY)` (kept as an `Image`) -/
  cvtColorGray : Image → Image
  /-- `cv2.threshold(img, t, 255, cv2.THRESH_BINARY)` (second component) -/
  threshold : Image → ℚ → Image
  /-- `cv2.morphologyEx(img, cv2.MORPH_CLOSE, noise_kernel, iterations=n)` -/
  morphClose : Image → Nat → Image
  /-- `cv2.findContours(img, cv2.RETR_TREE, cv2.CHAIN_APPROX_SIMPLE)` (middle component) -/
  findContours : Image → List (List Pt)
  /-- `cv2.contourArea(cnt)` -/
  contourArea : List Pt → ℚ
  /-- `cv2.convexHull(cnt)` -/
  convexHull : List Pt → List Pt
  /-- `cv2.arcLength(hull, True)` -/
  arcLength : List Pt → ℚ
  /-- `cv2.fitEllipse(cnt)` -/
  fitEllipse : List Pt → Ellipse
  /-- `cv2.minAreaRect(cnt)` -/
  minAreaRect : List Pt → RotRect
  /-- `cv2.boxPoints(rect)` -/
  boxPoints : RotRect → List (ℚ × ℚ)
  /-- `cv2.circle(frame, c, 2, color)` (in-place draw, modelled functionally) -/
  circle : Image → Pt → Image
  /-- `cv2.drawContours(frame, cnt, ..., color, w)` (in-place draw) -/
  drawContours : Image → List Pt → Image
  /-- `cv2.ellipse(frame, e, color, 1)` (in-place draw) -/
  ellipse : Image → Ellipse → Image
  /-- `cv2.rectangle(frame, p1, p2, color)` (in-place draw) -/
  rectangle : Image → Pt → Pt → Image

/-- The Python exceptions the tracker's code can raise. -/
inductive PyErr where
  /-- `AttributeError` (empty candidate list, or nothing to clear to) -/
  | attrError
  /-- `IndexError` (list index out of range) -/
  | indexError
  /-- `TypeError` (subscripting `None`, e.g. `self.roi_refle[0]` when unset) -/
  | typeError
  /-- `ZeroDivisionError` (`h / w` with `w == 0.0`) -/
  | zeroDivError
  /-- `cv2.error` (an OpenCV call applied to `None`) -/
  | cvError
deriving DecidableEq

/-- Decidable equality of `Except` values, to evaluate concrete runs of
the embedded operations. -/
instance {ε α : Type} [DecidableEq ε] [DecidableEq α] :
    DecidableEq (Except ε α) := fun a b =>
  match a, b with
  | .error e, .error e' => decidable_of_iff (e = e') (by simp)
  | .ok x, .ok y => decidable_of_iff (x = y) (by simp)
  | .error _, .ok _ => isFalse (by simp)
  | .ok _, .error _ => isFalse (by simp)

/-- The mutable state of a `PupilTracker` instance relevant to detection and
tracking: the working frame, the pristine original copy, and the two ROI
slots.  All are `None` after `__init__`. -/
structure TState where
  frame : Option Image
  orig_image : Option Image
  roi_pupil : Option Rect
  roi_refle : Option Rect
deriving DecidableEq

/-- The freshly constructed tracker (`__init__`): everything unset. -/
def initState : TState := ⟨none, none, none, none⟩

/-- Python `int()` on a rational: truncation toward zero. -/
def pyInt (q : ℚ) : Int :=
  if q < 0 then -((-q.num) / (q.den : Int)) else q.num / (q.den : Int)

/-- Python list indexing `l[i]`: nonnegative indices from the front,
negative indices from the back, `none` standing for `IndexError`. -/
def pyGet (l : List α) (i : Int) : Option α :=
  if 0 ≤ i then l.get? i.toNat
  else if (l.length : Int) + i < 0 then none
  else l.get? ((l.length : Int) + i).toNat

/-- Normalize one end of a numpy slice of a sequence of length `len`. -/
def sliceIdx (len : Nat) (i : Int) : Nat :=
  if i < 0 then (((len : Int) + i).toNat).min len else i.toNat.min len

/-- Numpy basic slicing `l[a:b]` (step 1). -/
def pySlice (l : List α) (a b : Int) : List α :=
  (l.take (sliceIdx l.length b)).drop (sliceIdx l.length a)

/-- `img[roi[0][1]:roi[1][1], roi[0][0]:roi[1][0]]`: numpy 2-D crop. -/
def cropImg (img : Image) (r : Rect) : Image :=
  (pySlice img r.1.2 r.2.2).map (fun row => pySlice row r.1.1 r.2.1)

/-- The exact rational value of the IEEE-754 double `np.pi`. -/
def npPi : ℚ := 884279719003555 / 281474976710656

/-- `PupilTracker.process_image`: crop to the ROI when given (recording its
top-left corner as the crop offset `(dx, dy)`), Gaussian-blur, grayscale.
Returns the offset together with the processed image. -/
def process_image (cv : CVO) (img : Image) (roi : Option Rect) : (Int × Int) × Image :=
  match roi with
  | some r => ((r.1.1, r.1.2), cv.cvtColorGray (cv.gaussianBlur (cropImg img r)))
  | none => ((0, 0), cv.cvtColorGray (cv.gaussianBlur img))

/-- Translate a contour by the crop offset (`cnt[:, :, 0] += dx` etc.). -/
def translateCnt (dx dy : Int) (cnt : List Pt) : List Pt :=
  cnt.map (fun p => (p.1 + dx, p.2 + dy))

/-- The per-contour body of the `find_pupils` loop: area filter, hull-size
filter, circularity filter, then rescale of the hull to full-image
coordinates.  `none` models `continue`. -/
def pupilFilterMap (cv : CVO) (dx dy : Int) (cnt : List Pt) : Option (List Pt) :=
  let area := cv.contourArea cnt
  if area = 0 then none
  else if ¬(1000 < area ∧ area < 5000) then none
  else
    let hull := cv.convexHull cnt
    if hull.length < 5 then none
    else
      let circumference := cv.arcLength hull
      let circularity := circumference ^ 2 / (4 * npPi * area)
      if (8 : ℚ) / 5 ≤ circularity then none
      else some (translateCnt dx dy hull)

/-- `PupilTracker.find_pupils`: preprocess the current frame with the given
ROI, threshold at 45, close with 4 iterations, extract contours, and keep
the (translated) hulls of the contours passing all filters. -/
def find_pupils (cv : CVO) (s : TState) (roi : Option Rect) :
    Except PyErr (List (List Pt)) :=
  match s.frame with
  | none => .error .cvError
  | some f =>
    let pr := process_image cv f roi
    .ok ((cv.findContours (cv.morphClose (cv.threshold pr.2 45) 4)).filterMap
      (pupilFilterMap cv pr.1.1 pr.1.2))

/-- The strict-containment test `find_refle` applies to a candidate's
minimum-area-rectangle center, against the stored reflection ROI. -/
def centerInRoi (cv : CVO) (rr : Rect) (c : List Pt) : Bool :=
  let rect := cv.minAreaRect c
  let cx := pyInt rect.cx
  let cy := pyInt rect.cy
  decide (rr.1.1 < cx ∧ cx < rr.2.1 ∧ rr.1.2 < cy ∧ cy < rr.2.2)

/-- Keep an optional value only when it satisfies a Boolean predicate. -/
def optFilter (p : α → Bool) : Option α → Option α
  | some a => if p a then some a else none
  | none => none

/-- The per-contour body of the `find_refle` loop: area filter, rescale,
squareness filter (`h / w`, raising `ZeroDivisionError` on `w = 0`), and —
only when the `roi` argument is non-null — the containment check of the
rectangle center against `self.roi_refle` (a `TypeError` when that slot is
`None`).  `.ok none` models `continue`. -/
def refleStep (cv : CVO) (rr roi : Option Rect) (dx dy : Int) (cnt : List Pt) :
    Except PyErr (Option (List Pt)) :=
  let area := cv.contourArea cnt
  if area = 0 then .ok none
  else if ¬(25 < area ∧ area < 500) then .ok none
  else
    let cnt' := translateCnt dx dy cnt
    let rect := cv.minAreaRect cnt'
    if rect.w = 0 then .error .zeroDivError
    else
      let squareness := rect.h / rect.w
      if ¬((1 : ℚ) / 2 < squareness ∧ squareness < 2) then .ok none
      else
        match roi with
        | none => .ok (some cnt')
        | some _ =>
          match rr with
          | none => .error .typeError
          | some rrv =>
            if ¬(rrv.1.1 < pyInt rect.cx ∧ pyInt rect.cx < rrv.2.1) ∨
                ¬(rrv.1.2 < pyInt rect.cy ∧ pyInt rect.cy < rrv.2.2) then .ok none
            else .ok (some cnt')

/-- The `find_refle` contour loop, accumulating accepted candidates in
discovery order; a raised exception aborts the whole call. -/
def refleLoop (cv : CVO) (rr roi : Option Rect) (dx dy : Int) :
    List (List Pt) → Except PyErr (List (List Pt))
  | [] => .ok []
  | cnt :: rest =>
    match refleStep cv rr roi dx dy cnt with
    | .error e => .error e
    | .ok none => refleLoop cv rr roi dx dy rest
    | .ok (some c) =>
      match refleLoop cv rr roi dx dy rest with
      | .error e => .error e
      | .ok tail => .ok (c :: tail)

/-- `PupilTracker.find_refle`: preprocesses the current frame with the
*stored pupil ROI* (`self.roi_pupil`), not the `roi` parameter; thresholds
at 200, closes with 2 iterations, extracts contours, and runs the
reflection filter loop. -/
def find_refle (cv : CVO) (s : TState) (roi : Option Rect) :
    Except PyErr (List (List Pt)) :=
  match s.frame with
  | none => .error .cvError
  | some f =>
    let pr := process_image cv f s.roi_pupil
    refleLoop cv s.roi_refle roi pr.1.1 pr.1.2
      (cv.findContours (cv.morphClose (cv.threshold pr.2 200) 2))

/-- The 200×200 pupil ROI rectangle centered at `c`. -/
def pupilRect (c : Pt) : Rect := ((c.1 - 100, c.2 - 100), (c.1 + 100, c.2 + 100))

/-- The 30×30 reflection ROI rectangle centered at `c`. -/
def refleRect (c : Pt) : Rect := ((c.1 - 15, c.2 - 15), (c.1 + 15, c.2 + 15))

/-- The successful tail of `draw_pupil`: fit an ellipse to the selected
hull, truncate its center, draw (the extra annotations only when
`verbose`), and recenter the pupil ROI. -/
def drawPupilOk (cv : CVO) (s : TState) (f : Image) (cnt : List Pt)
    (verbose : Bool) : TState :=
  let ell := cv.fitEllipse cnt
  let cx := pyInt ell.cx
  let cy := pyInt ell.cy
  let f1 := cv.circle f (cx, cy)
  let f2 := if verbose then
      cv.rectangle (cv.ellipse (cv.drawContours f1 cnt) ell)
        (cx - 100, cy - 100) (cx + 100, cy + 100)
    else f1
  { s with frame := some f2, roi_pupil := some (pupilRect (cx, cy)) }

/-- `PupilTracker.draw_pupil`: search, select by (Python) index, fit an
ellipse, draw, and set the pupil ROI to the 200×200 rectangle around the
truncated ellipse center. -/
def draw_pupil (cv : CVO) (s : TState) (index : Option Int) (roi : Option Rect)
    (verbose : Bool) : Except PyErr TState :=
  match find_pupils cv s roi with
  | .error e => .error e
  | .ok cnt_list =>
    if cnt_list.length = 0 then .error .attrError
    else
      match pyGet cnt_list (index.getD 0) with
      | none => .error .indexError
      | some cnt =>
        match s.frame with
        | none => .error .cvError
        | some f => .ok (drawPupilOk cv s f cnt verbose)

/-- The successful tail of `draw_refle`: fit the minimum-area rectangle,
truncate its center, recenter the reflection ROI, and draw. -/
def drawRefleOk (cv : CVO) (s : TState) (f : Image) (cnt : List Pt)
    (verbose : Bool) : TState :=
  let rect := cv.minAreaRect cnt
  let box := (cv.boxPoints rect).map (fun p => (pyInt p.1, pyInt p.2))
  let cx := pyInt rect.cx
  let cy := pyInt rect.cy
  let f1 := cv.circle f (cx, cy)
  let f2 := if verbose then
      cv.drawContours (cv.drawContours
        (cv.rectangle f1 (cx - 15, cy - 15) (cx + 15, cy + 15)) cnt) box
    else f1
  { s with frame := some f2, roi_refle := some (refleRect (cx, cy)) }

/-- `PupilTracker.draw_refle`: search, select by (Python) index, fit a
minimum-area rectangle, set the reflection ROI to the 30×30 rectangle
around the truncated rectangle center, and draw. -/
def draw_refle (cv : CVO) (s : TState) (index : Option Int) (roi : Option Rect)
    (verbose : Bool) : Except PyErr TState :=
  match find_refle cv s roi with
  | .error e => .error e
  | .ok cnt_list =>
    if cnt_list.length = 0 then .error .attrError
    else
      match pyGet cnt_list (index.getD 0) with
      | none => .error .indexError
      | some cnt =>
        match s.frame with
        | none => .error .cvError
        | some f => .ok (drawRefleOk cv s f cnt verbose)

/-- `PupilTracker.track_pupil`: no-op when the pupil ROI is unset;
otherwise `draw_pupil(roi=self.roi_pupil)`, with `IndexError` and
`AttributeError` swallowed (any other exception propagates). -/
def track_pupil (cv : CVO) (s : TState) : Except PyErr TState :=
  match s.roi_pupil with
  | none => .ok s
  | some r =>
    match draw_pupil cv s none (some r) true with
    | .ok s' => .ok s'
    | .error .indexError => .ok s
    | .error .attrError => .ok s
    | .error e => .error e

/-- `PupilTracker.track_refle`: no-op when the reflection ROI is unset;
otherwise `draw_refle(roi=self.roi_refle)`, with `IndexError` and
`AttributeError` swallowed. -/
def track_refle (cv : CVO) (s : TState) : Except PyErr TState :=
  match s.roi_refle with
  | none => .ok s
  | some r =>
    match draw_refle cv s none (some r) true with
    | .ok s' => .ok s'
    | .error .indexError => .ok s
    | .error .attrError => .ok s
    | .error e => .error e

/-- The successful-read branch of `PupilTracker.next_frame` (`ret == True`):
halve the raw frame, store it as the working frame and (as a copy) as the
original image.  The ROI slots are not touched on this path. -/
def ingest_frame (cv : CVO) (s : TState) (raw : Image) : TState :=
  let f := cv.resize_half raw
  { s with frame := some f, orig_image := some f }

/-- The end-of-stream branch of `PupilTracker.next_frame` (`ret == False`):
rewinds the capture and clears both ROI slots (before reloading the first
frame and raising `EOFError`). -/
def eof_clear (s : TState) : TState :=
  { s with roi_pupil := none, roi_refle := none }

/-- `PupilTracker.get_orig_frame` (the reset/clear operation): restore the
working frame from the original copy and clear both ROI slots, or raise
`AttributeError` when no frame was ever loaded. -/
def get_orig_frame (s : TState) : Except PyErr TState :=
  match s.orig_image with
  | none => .error .attrError
  | some o => .ok { s with frame := some o, roi_pupil := none, roi_refle := none }

/-- The operations a client (GUI or playback loop) can invoke on the
tracker. -/
inductive Op where
  | ingest (raw : Image)
  | eofClear
  | reset
  | drawP (index : Option Int) (roi : Option Rect) (verbose : Bool)
  | drawR (index : Option Int) (roi : Option Rect) (verbose : Bool)
  | trackP
  | trackR

/-- One operation applied to the tracker state.  An operation that raises
leaves the state as it was at the raise point, which for every raising path
of this code is the entry state. -/
def step (cv : CVO) (s : TState) : Op → TState
  | .ingest raw => ingest_frame cv s raw
  | .eofClear => eof_clear s
  | .reset =>
    match get_orig_frame s with
    | .ok s' => s'
    | .error _ => s
  | .drawP i r v =>
    match draw_pupil cv s i r v with
    | .ok s' => s'
    | .error _ => s
  | .drawR i r v =>
    match draw_refle cv s i r v with
    | .ok s' => s'
    | .error _ => s
  | .trackP =>
    match track_pupil cv s with
    | .ok s' => s'
    | .error _ => s
  | .trackR =>
    match track_refle cv s with
    | .ok s' => s'
    | .error _ => s

/-- Run a sequence of operations from a state. -/
def run (cv : CVO) (s : TState) : List Op → TState
  | [] => s
  | op :: ops => run cv (step cv s op) ops

/-- The candidate list `find_pupils` produces once a frame is present. -/
def pupilCandidates (cv : CVO) (f : Image) (roi : Option Rect) : List (List Pt) :=
  let pr := process_image cv f roi
  (cv.findContours (cv.morphClose (cv.threshold pr.2 45) 4)).filterMap
    (pupilFilterMap cv pr.1.1 pr.1.2)

/-- The shape invariant the ROI slots keep over every operation: a set
pupil ROI is a 200×200 rectangle around some center, and a set reflection
ROI is a 30×30 rectangle around some center. -/
def roiInv (s : TState) : Prop :=
  (∀ r, s.roi_pupil = some r → ∃ c, r = pupilRect c) ∧
  (∀ r, s.roi_refle = some r → ∃ c, r = refleRect c)

/-- First test contour fed by the concrete oracle `cvW`. -/
def pupilCntA : List Pt := [(0, 0), (0, 1), (1, 1), (1, 0), (2, 2)]

/-- Second test contour fed by the concrete oracle `cvW`. -/
def pupilCntB : List Pt := [(3, 3), (3, 4), (4, 4), (4, 3), (5, 5)]

/-- A concrete OpenCV oracle for exercising the theorems on explicit
inputs: image transforms and drawing are the identity, measurements are
constants that pass every pupil filter, and contour extraction returns two
5-point contours. -/
def cvW : CVO where
  resize_half := id
  gaussianBlur := id
  cvtColorGray := id
  threshold := fun img _ => img
  morphClose := fun img _ => img
  findContours := fun _ => [pupilCntA, pupilCntB]
  contourArea := fun _ => 2000
  convexHull := fun c => c
  arcLength := fun _ => 0
  fitEllipse := fun _ => ⟨3, 4, 0, 0, 0⟩
  minAreaRect := fun _ => ⟨50, 50, 10, 10, 0⟩
  boxPoints := fun _ => []
  circle := fun f _ => f
  drawContours := fun f _ => f
  ellipse := fun f _ => f
  rectangle := fun f _ _ => f

/-- A concrete oracle whose single contour passes every reflection filter:
area 100, minimum-area rectangle centered at (50, 50) with w = h = 10. -/
def cvR : CVO where
  resize_half := id
  gaussianBlur := id
  cvtColorGray := id
  threshold := fun img _ => img
  morphClose := fun img _ => img
  findContours := fun _ => [[(0, 0)]]
  contourArea := fun _ => 100
  convexHull := fun c => c
  arcLength := fun _ => 0
  fitEllipse := fun _ => ⟨3, 4, 0, 0, 0⟩
  minAreaRect := fun _ => ⟨50, 50, 10, 10, 0⟩
  boxPoints := fun _ => []
  circle := fun f _ => f
  drawContours := fun f _ => f
  ellipse := fun f _ => f
  rectangle := fun f _ _ => f

/-- A concrete oracle that finds no contours at all. -/
def cvE : CVO where
  resize_half := id
  gaussianBlur := id
  cvtColorGray := id
  threshold := fun img _ => img
  morphClose := fun img _ => img
  findContours := fun _ => []
  contourArea := fun _ => 0
  convexHull := fun c => c
  arcLength := fun _ => 0
  fitEllipse := fun _ => ⟨0, 0, 0, 0, 0⟩
  minAreaRect := fun _ => ⟨0, 0, 0, 0, 0⟩
  boxPoints := fun _ => []
  circle := fun f _ => f
  drawContours := fun f _ => f
  ellipse := fun f _ => f
  rectangle := fun f _ _ => f

/-- A loaded state with empty frame and no ROIs. -/
def sW : TState := ⟨some [], some [], none, none⟩

/-- A loaded state whose reflection ROI is `((0,0),(100,100))`. -/
def sR : TState := ⟨some [], some [], none, some ((0, 0), (100, 100))⟩

/-- A loaded state whose pupil ROI is `((0,0),(1,1))`. -/
def sE : TState := ⟨some [], some [], some ((0, 0), (1, 1)), none⟩

lemma find_pupils_eq (cv : CVO) (s : TState) (f : Image) (roi : Option Rect)
    (hf : s.frame = some f) :
    find_pupils cv s roi = .ok (pupilCandidates cv f roi) := by
  unfold find_pupils pupilCandidates
  rw [hf]

lemma translateCnt_length (dx dy : Int) (cnt : List Pt) :
    (translateCnt dx dy cnt).length = cnt.length :=
  List.length_map _ _

lemma pupilFilterMap_sound {cv : CVO} {dx dy : Int} {cnt hp : List Pt}
    (h : pupilFilterMap cv dx dy cnt = some hp) :
    hp = translateCnt dx dy (cv.convexHull cnt) ∧
    cv.contourArea cnt ≠ 0 ∧
    1000 < cv.contourArea cnt ∧ cv.contourArea cnt < 5000 ∧
    5 ≤ (cv.convexHull cnt).length ∧
    (cv.arcLength (cv.convexHull cnt)) ^ 2 / (4 * npPi * cv.contourArea cnt)
      < 8 / 5 := by
  simp only [pupilFilterMap] at h
  split_ifs at h with h1 h2 h3 h4
  exact ⟨(Option.some_injective _ h).symm, h1, h2.1, h2.2, by omega,
    lt_of_not_le h4⟩

/-- Claim C1 — every contour returned by `find_pupils` is the translated
convex hull of a contour whose enclosed area is nonzero and strictly
between 1000 and 5000, whose hull has at least 5 points (so the returned
contour does too), and whose hull circularity is strictly below 1.6. -/
theorem find_pupils_filter_sound (cv : CVO) (s : TState) (roi : Option Rect)
    (l : List (List Pt)) (hp : List Pt)
    (hok : find_pupils cv s roi = .ok l) (hmem : hp ∈ l) :
    ∃ cnt dx dy,
      hp = translateCnt dx dy (cv.convexHull cnt) ∧
      cv.contourArea cnt ≠ 0 ∧
      1000 < cv.contourArea cnt ∧ cv.contourArea cnt < 5000 ∧
      5 ≤ (cv.convexHull cnt).length ∧ 5 ≤ hp.length ∧
      (cv.arcLength (cv.convexHull cnt)) ^ 2 / (4 * npPi * cv.contourArea cnt)
        < 8 / 5 := by
  unfold find_pupils at hok
  cases hf : s.frame with
  | none => rw [hf] at hok; cases hok
  | some f =>
    rw [hf] at hok
    simp only [Except.ok.injEq] at hok
    rw [← hok] at hmem
    obtain ⟨cnt, _, hcnt⟩ := List.mem_filterMap.mp hmem
    obtain ⟨heq, h0, h1, h2, h3, h4⟩ := pupilFilterMap_sound hcnt
    refine ⟨cnt, _, _, heq, h0, h1, h2, h3, ?_, h4⟩
    rw [heq, translateCnt_length]
    exact h3

lemma find_pupils_cvW : find_pupils cvW sW none = .ok [pupilCntA, pupilCntB] := by
  rw [find_pupils_eq cvW sW [] none rfl]
  norm_num [pupilCandidates, process_image, cvW, pupilFilterMap, translateCnt,
    npPi, pupilCntA, pupilCntB, List.filterMap_cons, List.filterMap_nil]

/-- Witness for C1: the filter soundness evaluated at the concrete oracle
`cvW`, which returns two candidates. -/
theorem find_pupils_filter_sound_witness :
    ∃ cnt dx dy,
      pupilCntA = translateCnt dx dy (cvW.convexHull cnt) ∧
      cvW.contourArea cnt ≠ 0 ∧
      1000 < cvW.contourArea cnt ∧ cvW.contourArea cnt < 5000 ∧
      5 ≤ (cvW.convexHull cnt).length ∧ 5 ≤ pupilCntA.length ∧
      (cvW.arcLength (cvW.convexHull cnt)) ^ 2 / (4 * npPi * cvW.contourArea cnt)
        < 8 / 5 :=
  find_pupils_filter_sound cvW sW none [pupilCntA, pupilCntB] pupilCntA
    find_pupils_cvW (by simp)

lemma pyGet_nat (l : List α) (n : Nat) : pyGet l (n : Int) = l.get? n := by
  unfold pyGet
  rw [if_pos (Int.ofNat_nonneg n)]
  simp

lemma pyGet_eq_none_iff (l : List α) (i : Int) :
    pyGet l i = none ↔ (l.length : Int) ≤ i ∨ i < -(l.length : Int) := by
  unfold pyGet
  split_ifs with h0 h1
  · simp only [List.get?_eq_none]
    omega
  · simp only [true_iff]
    omega
  · simp only [List.get?_eq_none]
    omega

lemma pyGet_neg (l : List α) (i : Int) (h0 : i < 0) (h1 : -(l.length : Int) ≤ i) :
    pyGet l i = pyGet l (i + l.length) := by
  have ha : ¬ (0 ≤ i) := by omega
  have hb : ¬ ((l.length : Int) + i < 0) := by omega
  have hc : (0 : Int) ≤ i + l.length := by omega
  simp only [pyGet, if_neg ha, if_neg hb, if_pos hc]
  congr 1
  omega

lemma draw_pupil_eq (cv : CVO) (s : TState) (f : Image) (roi : Option Rect)
    (i : Option Int) (v : Bool) (hf : s.frame = some f) :
    draw_pupil cv s i roi v =
      if (pupilCandidates cv f roi).length = 0 then .error .attrError
      else
        match pyGet (pupilCandidates cv f roi) (i.getD 0) with
        | none => .error .indexError
        | some cnt => .ok (drawPupilOk cv s f cnt v) := by
  unfold draw_pupil
  rw [find_pupils_eq cv s f roi hf, hf]

lemma draw_refle_eq (cv : CVO) (s : TState) (f : Image) (roi : Option Rect)
    (i : Option Int) (v : Bool) (l : List (List Pt)) (hf : s.frame = some f)
    (hok : find_refle cv s roi = .ok l) :
    draw_refle cv s i roi v =
      if l.length = 0 then .error .attrError
      else
        match pyGet l (i.getD 0) with
        | none => .error .indexError
        | some cnt => .ok (drawRefleOk cv s f cnt v) := by
  unfold draw_refle
  rw [hok, hf]

/-- Claim C6 — with a frame loaded and a nonnegative index, `draw_pupil`
raises the not-found error (`AttributeError`, "No pupils found") exactly
when `find_pupils` returns the empty list, and raises the index error
(`IndexError`) exactly when the list is non-empty and the index is at or
past its length. -/
theorem draw_pupil_error_iff (cv : CVO) (s : TState) (f : Image) (roi : Option Rect)
    (idx : Nat) (verbose : Bool) (hf : s.frame = some f) :
    (draw_pupil cv s (some (idx : Int)) roi verbose = .error .attrError ↔
      find_pupils cv s roi = .ok []) ∧
    (draw_pupil cv s (some (idx : Int)) roi verbose = .error .indexError ↔
      ∃ l, find_pupils cv s roi = .ok l ∧ l ≠ [] ∧ l.length ≤ idx) := by
  rw [draw_pupil_eq cv s f roi (some (idx : Int)) verbose hf,
    find_pupils_eq cv s f roi hf]
  have hgd : (some ((idx : Int))).getD 0 = (idx : Int) := rfl
  rw [hgd, pyGet_nat]
  by_cases h0 : (pupilCandidates cv f roi).length = 0
  · have hnil : pupilCandidates cv f roi = [] := List.length_eq_zero.mp h0
    rw [if_pos h0]
    constructor
    · simp [hnil]
    · simp [hnil]
  · have hne : pupilCandidates cv f roi ≠ [] := fun hx => h0 (by simp [hx])
    rw [if_neg h0]
    cases hg : (pupilCandidates cv f roi).get? idx with
    | none =>
      have hlen : (pupilCandidates cv f roi).length ≤ idx := List.get?_eq_none.mp hg
      constructor
      · constructor
        · intro hx; cases hx
        · intro hx
          exact absurd (Except.ok.inj hx) hne
      · constructor
        · intro _; exact ⟨pupilCandidates cv f roi, rfl, hne, hlen⟩
        · intro _; rfl
    | some cnt =>
      have hlt : idx < (pupilCandidates cv f roi).length := by
        by_contra hc
        rw [List.get?_eq_none.mpr (by omega)] at hg
        cases hg
      constructor
      · constructor
        · intro hx; cases hx
        · intro hx
          exact absurd (Except.ok.inj hx) hne
      · constructor
        · intro hx; cases hx
        · rintro ⟨l, hl, -, hlen⟩
          rw [Except.ok.inj hl] at hlt
          omega

/-- Witness for C6: with the two-candidate oracle `cvW`, requesting index 5
raises the index error, via the theorem's `IndexError` equivalence. -/
theorem draw_pupil_error_iff_witness :
    draw_pupil cvW sW (some ((5 : Nat) : Int)) none true = .error .indexError :=
  ((draw_pupil_error_iff cvW sW [] none 5 true rfl).2).mpr
    ⟨[pupilCntA, pupilCntB], find_pupils_cvW, by simp, by simp⟩

/-- Claim C10 — candidate selection uses Python indexing: on a non-empty
candidate list of length n, a negative index with absolute value at most n
makes `draw_pupil` (resp. `draw_refle`) succeed, selecting the candidate at
position n + index — the call equals the call with that nonnegative index —
while an index at or past n, or a negative index with absolute value above
n, raises the index error. -/
theorem draw_negative_index (cv : CVO) (s : TState) (f : Image) (roi : Option Rect)
    (verbose : Bool) (idx : Int) (hf : s.frame = some f) :
    (∀ l, find_pupils cv s roi = .ok l → l ≠ [] → idx < 0 → -(l.length : Int) ≤ idx →
      draw_pupil cv s (some idx) roi verbose
        = draw_pupil cv s (some (idx + l.length)) roi verbose ∧
      ∃ s', draw_pupil cv s (some idx) roi verbose = .ok s') ∧
    (∀ l, find_pupils cv s roi = .ok l → l ≠ [] →
      ((l.length : Int) ≤ idx ∨ idx < -(l.length : Int)) →
      draw_pupil cv s (some idx) roi verbose = .error .indexError) ∧
    (∀ l, find_refle cv s roi = .ok l → l ≠ [] → idx < 0 → -(l.length : Int) ≤ idx →
      draw_refle cv s (some idx) roi verbose
        = draw_refle cv s (some (idx + l.length)) roi verbose ∧
      ∃ s', draw_refle cv s (some idx) roi verbose = .ok s') ∧
    (∀ l, find_refle cv s roi = .ok l → l ≠ [] →
      ((l.length : Int) ≤ idx ∨ idx < -(l.length : Int)) →
      draw_refle cv s (some idx) roi verbose = .error .indexError) := by
  refine ⟨?_, ?_, ?_, ?_⟩
  · intro l hok hne hneg hge
    have hl : l = pupilCandidates cv f roi := by
      have h2 := find_pupils_eq cv s f roi hf
      rw [hok] at h2
      exact Except.ok.inj h2
    subst hl
    have h0 : ¬((pupilCandidates cv f roi).length = 0) := by
      intro h; exact hne (List.length_eq_zero.mp h)
    rw [draw_pupil_eq cv s f roi (some idx) verbose hf,
      draw_pupil_eq cv s f roi (some (idx + (pupilCandidates cv f roi).length))
        verbose hf, if_neg h0, if_neg h0]
    simp only [Option.getD_some]
    rw [pyGet_neg (pupilCandidates cv f roi) idx hneg hge]
    refine ⟨rfl, ?_⟩
    cases hres : pyGet (pupilCandidates cv f roi) (idx + (pupilCandidates cv f roi).length) with
    | none =>
      rw [pyGet_eq_none_iff] at hres
      omega
    | some cnt => exact ⟨_, rfl⟩
  · intro l hok hne hor
    have hl : l = pupilCandidates cv f roi := by
      have h2 := find_pupils_eq cv s f roi hf
      rw [hok] at h2
      exact Except.ok.inj h2
    subst hl
    have h0 : ¬((pupilCandidates cv f roi).length = 0) := by
      intro h; exact hne (List.length_eq_zero.mp h)
    rw [draw_pupil_eq cv s f roi (some idx) verbose hf, if_neg h0]
    simp only [Option.getD_some]
    rw [(pyGet_eq_none_iff _ _).mpr hor]
  · intro l hok hne hneg hge
    have h0 : ¬(l.length = 0) := by
      intro h; exact hne (List.length_eq_zero.mp h)
    rw [draw_refle_eq cv s f roi (some idx) verbose l hf hok,
      draw_refle_eq cv s f roi (some (idx + l.length)) verbose l hf hok,
      if_neg h0, if_neg h0]
    simp only [Option.getD_some]
    rw [pyGet_neg l idx hneg hge]
    refine ⟨rfl, ?_⟩
    cases hres : pyGet l (idx + l.length) with
    | none =>
      rw [pyGet_eq_none_iff] at hres
      omega
    | some cnt => exact ⟨_, rfl⟩
  · intro l hok hne hor
    have h0 : ¬(l.length = 0) := by
      intro h; exact hne (List.length_eq_zero.mp h)
    rw [draw_refle_eq cv s f roi (some idx) verbose l hf hok, if_neg h0]
    simp only [Option.getD_some]
    rw [(pyGet_eq_none_iff _ _).mpr hor]

/-- Witness for C10: index −1 with the concrete two-candidate oracle
selects the last candidate and equals the call with index 1. -/
theorem draw_negative_index_witness :
    draw_pupil cvW sW (some (-1)) none true
      = draw_pupil cvW sW (some (-1 + ([pupilCntA, pupilCntB].length : Int))) none true ∧
    ∃ s', draw_pupil cvW sW (some (-1)) none true = .ok s' :=
  (draw_negative_index cvW sW [] none true (-1) rfl).1 [pupilCntA, pupilCntB]
    find_pupils_cvW (by simp) (by norm_num) (by simp)

lemma refleStep_some {cv : CVO} {rr roi : Option Rect} {dx dy : Int} {cnt c : List Pt}
    (h : refleStep cv rr roi dx dy cnt = .ok (some c)) :
    c = translateCnt dx dy cnt ∧
    cv.contourArea cnt ≠ 0 ∧ 25 < cv.contourArea cnt ∧ cv.contourArea cnt < 500 ∧
    (cv.minAreaRect c).w ≠ 0 ∧
    (1 : ℚ) / 2 < (cv.minAreaRect c).h / (cv.minAreaRect c).w ∧
    (cv.minAreaRect c).h / (cv.minAreaRect c).w < 2 ∧
    (∀ r, roi = some r → ∃ rrv, rr = some rrv ∧ centerInRoi cv rrv c = true) := by
  simp only [refleStep] at h
  split_ifs at h with h1 h2 h3 h4
  all_goals try exact absurd (Except.ok.inj h) (by simp)
  cases roi with
  | none =>
    replace h : Except.ok (some (translateCnt dx dy cnt))
        = (Except.ok (some c) : Except PyErr (Option (List Pt))) := h
    have hc : translateCnt dx dy cnt = c := Option.some.inj (Except.ok.inj h)
    subst hc
    refine ⟨rfl, h1, h2.1, h2.2, h3, h4.1, h4.2, ?_⟩
    intro r hr
    exact Option.noConfusion hr
  | some r0 =>
    cases rr with
    | none =>
      replace h : (Except.error PyErr.typeError : Except PyErr (Option (List Pt)))
          = Except.ok (some c) := h
      exact Except.noConfusion h
    | some rrv =>
      replace h :
          (if ¬(rrv.1.1 < pyInt (cv.minAreaRect (translateCnt dx dy cnt)).cx ∧
                pyInt (cv.minAreaRect (translateCnt dx dy cnt)).cx < rrv.2.1) ∨
              ¬(rrv.1.2 < pyInt (cv.minAreaRect (translateCnt dx dy cnt)).cy ∧
                pyInt (cv.minAreaRect (translateCnt dx dy cnt)).cy < rrv.2.2) then
            Except.ok none
          else Except.ok (some (translateCnt dx dy cnt))) = Except.ok (some c) := h
      split_ifs at h with h5
      · exact absurd (Except.ok.inj h) (by simp)
      · have hc : translateCnt dx dy cnt = c := Option.some.inj (Except.ok.inj h)
        subst hc
        push_neg at h5
        refine ⟨rfl, h1, h2.1, h2.2, h3, h4.1, h4.2, ?_⟩
        intro r hr
        refine ⟨rrv, rfl, ?_⟩
        simp only [centerInRoi, decide_eq_true_eq]
        exact ⟨h5.1.1, h5.1.2, h5.2.1, h5.2.2⟩

lemma refleLoop_mem {cv : CVO} {rr roi : Option Rect} {dx dy : Int}
    (cnts : List (List Pt)) :
    ∀ l c, refleLoop cv rr roi dx dy cnts = .ok l → c ∈ l →
      ∃ cnt, refleStep cv rr roi dx dy cnt = .ok (some c) := by
  induction cnts with
  | nil =>
    intro l c hok hc
    simp only [refleLoop] at hok
    rw [← Except.ok.inj hok] at hc
    exact absurd hc (List.not_mem_nil c)
  | cons a rest ih =>
    intro l c hok hc
    simp only [refleLoop] at hok
    cases hstep : refleStep cv rr roi dx dy a with
    | error e => rw [hstep] at hok; exact Except.noConfusion hok
    | ok o =>
      rw [hstep] at hok
      cases o with
      | none => exact ih l c hok hc
      | some c0 =>
        cases hrest : refleLoop cv rr roi dx dy rest with
        | error e => rw [hrest] at hok; exact Except.noConfusion hok
        | ok tail =>
          rw [hrest] at hok
          rw [← Except.ok.inj hok] at hc
          rcases List.mem_cons.mp hc with h | h
          · exact ⟨a, by rw [hstep, h]⟩
          · exact ih tail c hrest h

lemma find_refle_eq (cv : CVO) (s : TState) (f : Image) (roi : Option Rect)
    (hf : s.frame = some f) :
    find_refle cv s roi =
      refleLoop cv s.roi_refle roi (process_image cv f s.roi_pupil).1.1
        (process_image cv f s.roi_pupil).1.2
        (cv.findContours (cv.morphClose
          (cv.threshold (process_image cv f s.roi_pupil).2 200) 2)) := by
  unfold find_refle
  rw [hf]

/-- Claim C8 — every candidate `find_refle` returns is the translate of a
contour with enclosed area strictly between 25 and 500, and its own
minimum-area rectangle has h/w strictly between 0.5 and 2 (hence also w/h
strictly between 0.5 and 2 whenever the rectangle sides are nonnegative
lengths). -/
theorem find_refle_filter_sound (cv : CVO) (s : TState) (roi : Option Rect)
    (l : List (List Pt)) (c : List Pt)
    (hok : find_refle cv s roi = .ok l) (hc : c ∈ l) :
    ∃ cnt dx dy, c = translateCnt dx dy cnt ∧
      25 < cv.contourArea cnt ∧ cv.contourArea cnt < 500 ∧
      (cv.minAreaRect c).w ≠ 0 ∧
      (1 : ℚ) / 2 < (cv.minAreaRect c).h / (cv.minAreaRect c).w ∧
      (cv.minAreaRect c).h / (cv.minAreaRect c).w < 2 ∧
      (0 ≤ (cv.minAreaRect c).w →
        (1 : ℚ) / 2 < (cv.minAreaRect c).w / (cv.minAreaRect c).h ∧
        (cv.minAreaRect c).w / (cv.minAreaRect c).h < 2) := by
  cases hf : s.frame with
  | none => unfold find_refle at hok; rw [hf] at hok; exact Except.noConfusion hok
  | some f =>
    rw [find_refle_eq cv s f roi hf] at hok
    obtain ⟨cnt, hstep⟩ := refleLoop_mem _ l c hok hc
    obtain ⟨hcc, -, ha1, ha2, hw, hs1, hs2, -⟩ := refleStep_some hstep
    set w := (cv.minAreaRect c).w with hwdef
    set h := (cv.minAreaRect c).h with hhdef
    refine ⟨cnt, _, _, hcc, ha1, ha2, hw, hs1, hs2, ?_⟩
    intro hw0
    have hwpos : 0 < w := lt_of_le_of_ne hw0 (Ne.symm hw)
    have hhw : (1 : ℚ) / 2 * w < h := (lt_div_iff hwpos).mp hs1
    have hhw2 : h < 2 * w := by
      have := (div_lt_iff hwpos).mp hs2
      linarith
    have hhpos : 0 < h := by linarith
    constructor
    · rw [lt_div_iff hhpos]
      linarith
    · rw [div_lt_iff hhpos]
      linarith

lemma find_refle_cvR_plain : find_refle cvR sW none = .ok [[(0, 0)]] := by
  rw [find_refle_eq cvR sW [] none rfl]
  norm_num [cvR, sW, process_image, refleLoop, refleStep, translateCnt]

/-- Witness for C8: the reflection filter soundness at the one-candidate
oracle `cvR`. -/
theorem find_refle_filter_sound_witness :
    ∃ cnt dx dy, [((0 : Int), (0 : Int))] = translateCnt dx dy cnt ∧
      25 < cvR.contourArea cnt ∧ cvR.contourArea cnt < 500 ∧
      (cvR.minAreaRect [((0 : Int), (0 : Int))]).w ≠ 0 ∧
      (1 : ℚ) / 2 < (cvR.minAreaRect [((0 : Int), (0 : Int))]).h
        / (cvR.minAreaRect [((0 : Int), (0 : Int))]).w ∧
      (cvR.minAreaRect [((0 : Int), (0 : Int))]).h
        / (cvR.minAreaRect [((0 : Int), (0 : Int))]).w < 2 ∧
      (0 ≤ (cvR.minAreaRect [((0 : Int), (0 : Int))]).w →
        (1 : ℚ) / 2 < (cvR.minAreaRect [((0 : Int), (0 : Int))]).w
          / (cvR.minAreaRect [((0 : Int), (0 : Int))]).h ∧
        (cvR.minAreaRect [((0 : Int), (0 : Int))]).w
          / (cvR.minAreaRect [((0 : Int), (0 : Int))]).h < 2) :=
  find_refle_filter_sound cvR sW none [[(0, 0)]] [(0, 0)]
    find_refle_cvR_plain (by simp)

/-- Claim C2 (amended) — when `find_refle` is called with a non-null `roi`
argument, every returned candidate's truncated rectangle-fit center lies
strictly inside the *stored* reflection ROI (`self.roi_refle`): that is the
rectangle the containment filter actually checks, not the `roi` parameter
(the two coincide at the only call site passing a non-null `roi`,
`track_refle`). -/
theorem find_refle_containment_stored (cv : CVO) (s : TState) (r rr : Rect)
    (l : List (List Pt)) (c : List Pt)
    (hrr : s.roi_refle = some rr) (hok : find_refle cv s (some r) = .ok l)
    (hc : c ∈ l) : centerInRoi cv rr c = true := by
  cases hf : s.frame with
  | none =>
    unfold find_refle at hok
    rw [hf] at hok
    exact Except.noConfusion hok
  | some f =>
    rw [find_refle_eq cv s f (some r) hf, hrr] at hok
    obtain ⟨cnt, hstep⟩ := refleLoop_mem _ l c hok hc
    obtain ⟨-, -, -, -, -, -, -, hcont⟩ := refleStep_some hstep
    obtain ⟨rrv, hrrv, hin⟩ := hcont r rfl
    rwa [Option.some.inj hrrv]

lemma find_refle_cvR_out :
    find_refle cvR sR (some ((200, 200), (300, 300))) = .ok [[(0, 0)]] := by
  rw [find_refle_eq cvR sR [] (some ((200, 200), (300, 300))) rfl]
  have h50 : pyInt 50 = 50 := by decide
  norm_num [cvR, sR, process_image, refleLoop, refleStep, translateCnt, h50]

/-- Counterexample to claim C2 as stated: with stored reflection ROI
((0,0),(100,100)), calling `find_refle` with roi argument
((200,200),(300,300)) still returns the candidate whose rectangle-fit
center (50,50) lies outside that roi argument — the containment filter
reads `self.roi_refle`, never the `roi` parameter. -/
theorem find_refle_roi_param_cex :
    find_refle cvR sR (some ((200, 200), (300, 300))) = .ok [[(0, 0)]] ∧
    centerInRoi cvR ((200, 200), (300, 300)) [(0, 0)] = false := by
  refine ⟨find_refle_cvR_out, ?_⟩
  have h50 : pyInt 50 = 50 := by decide
  norm_num [centerInRoi, cvR, h50]

/-- Witness for the amended C2: the candidate returned in the concrete run
does lie strictly inside the stored reflection ROI. -/
theorem find_refle_containment_stored_witness :
    centerInRoi cvR ((0, 0), (100, 100)) [((0 : Int), (0 : Int))] = true :=
  find_refle_containment_stored cvR sR ((200, 200), (300, 300))
    ((0, 0), (100, 100)) [[(0, 0)]] [(0, 0)] rfl find_refle_cvR_out (by simp)

lemma except_map_ok {ε α β : Type} (f : α → β) (a : α) :
    Except.map f (Except.ok a : Except ε α) = .ok (f a) := rfl

lemma except_map_error {ε α β : Type} (f : α → β) (e : ε) :
    Except.map f (Except.error e : Except ε α) = .error e := rfl

lemma optFilter_some (p : α → Bool) (a : α) :
    optFilter p (some a) = if p a then some a else none := rfl

lemma optFilter_none (p : α → Bool) : optFilter p (none : Option α) = none := rfl

lemma centerInRoi_iff (cv : CVO) (rr : Rect) (c : List Pt) :
    centerInRoi cv rr c = true ↔
      (rr.1.1 < pyInt (cv.minAreaRect c).cx ∧ pyInt (cv.minAreaRect c).cx < rr.2.1) ∧
      (rr.1.2 < pyInt (cv.minAreaRect c).cy ∧ pyInt (cv.minAreaRect c).cy < rr.2.2) := by
  simp only [centerInRoi, decide_eq_true_eq]
  tauto

lemma refleStep_roiGate (cv : CVO) (rrv : Rect) (r : Rect) (dx dy : Int)
    (cnt : List Pt) :
    refleStep cv (some rrv) (some r) dx dy cnt =
      Except.map (optFilter (centerInRoi cv rrv))
        (refleStep cv (some rrv) none dx dy cnt) := by
  simp only [refleStep]
  split_ifs with h1 h2 h3 h4 h5
  any_goals rfl
  all_goals
    first
    | (have hb : centerInRoi cv rrv (translateCnt dx dy cnt) = false := by
        rw [← Bool.not_eq_true, centerInRoi_iff]
        tauto
       rw [except_map_ok, optFilter_some, hb]
       rfl)
    | (have hb : centerInRoi cv rrv (translateCnt dx dy cnt) = true := by
        rw [centerInRoi_iff]
        tauto
       rw [except_map_ok, optFilter_some, hb]
       rfl)

lemma refleLoop_roiGate (cv : CVO) (rrv : Rect) (r : Rect) (dx dy : Int)
    (cnts : List (List Pt)) :
    refleLoop cv (some rrv) (some r) dx dy cnts =
      Except.map (List.filter (centerInRoi cv rrv))
        (refleLoop cv (some rrv) none dx dy cnts) := by
  induction cnts with
  | nil => rfl
  | cons a rest ih =>
    simp only [refleLoop]
    rw [refleStep_roiGate cv rrv r dx dy a]
    cases hs : refleStep cv (some rrv) none dx dy a with
    | error e => rfl
    | ok o =>
      cases o with
      | none => exact ih
      | some c =>
        rw [ih]
        cases hrest : refleLoop cv (some rrv) none dx dy rest with
        | error e =>
          cases hb : centerInRoi cv rrv c <;>
            simp [except_map_ok, except_map_error, optFilter_some, hb]
        | ok tail =>
          cases hb : centerInRoi cv rrv c <;>
            simp [except_map_ok, optFilter_some, hb, List.filter_cons]

/-- Claim C4 — `find_refle` preprocesses with the stored pupil ROI, never
the `roi` parameter: (1) with a frame loaded, the call is exactly the
reflection loop over the contours of the frame preprocessed with
`self.roi_pupil`, using that crop's offset to rescale; (2) the result
depends on the frame only through `process_image` applied with the pupil
ROI; (3) the `roi` parameter only gates the containment filter — with it,
the result is the roi-less result filtered by the stored-reflection-ROI
containment test. -/
theorem find_refle_uses_pupil_roi :
    (∀ (cv : CVO) (s : TState) (f : Image) (roi : Option Rect), s.frame = some f →
      find_refle cv s roi =
        refleLoop cv s.roi_refle roi (process_image cv f s.roi_pupil).1.1
          (process_image cv f s.roi_pupil).1.2
          (cv.findContours (cv.morphClose
            (cv.threshold (process_image cv f s.roi_pupil).2 200) 2))) ∧
    (∀ (cv : CVO) (s₁ s₂ : TState) (f₁ f₂ : Image) (roi : Option Rect),
      s₁.frame = some f₁ → s₂.frame = some f₂ →
      s₁.roi_refle = s₂.roi_refle →
      process_image cv f₁ s₁.roi_pupil = process_image cv f₂ s₂.roi_pupil →
      find_refle cv s₁ roi = find_refle cv s₂ roi) ∧
    (∀ (cv : CVO) (s : TState) (r rr : Rect), s.roi_refle = some rr →
      find_refle cv s (some r) =
        Except.map (List.filter (centerInRoi cv rr)) (find_refle cv s none)) := by
  refine ⟨?_, ?_, ?_⟩
  · intro cv s f roi hf
    exact find_refle_eq cv s f roi hf
  · intro cv s₁ s₂ f₁ f₂ roi h1 h2 hrr hproc
    rw [find_refle_eq cv s₁ f₁ roi h1, find_refle_eq cv s₂ f₂ roi h2, hproc, hrr]
  · intro cv s r rr hrr
    cases hf : s.frame with
    | none =>
      unfold find_refle
      rw [hf]
      rfl
    | some f =>
      rw [find_refle_eq cv s f (some r) hf, find_refle_eq cv s f none hf, hrr]
      exact refleLoop_roiGate cv rr r _ _ _

/-- Witness for C4: the gating equality evaluated at the concrete oracle
`cvR` and state `sR`. -/
theorem find_refle_uses_pupil_roi_witness :
    find_refle cvR sR (some ((200, 200), (300, 300))) =
      Except.map (List.filter (centerInRoi cvR ((0, 0), (100, 100))))
        (find_refle cvR sR none) :=
  find_refle_uses_pupil_roi.2.2 cvR sR ((200, 200), (300, 300))
    ((0, 0), (100, 100)) rfl

/-- Counterexample to claim C3 as stated: a successful frame ingestion with
a set pupil ROI leaves that ROI set — the ROI slots are not cleared. -/
theorem ingest_frame_roi_cex :
    (ingest_frame cvW ⟨none, none, some ((0, 0), (10, 10)), none⟩ []).roi_pupil
      = some ((0, 0), (10, 10)) ∧
    ¬((ingest_frame cvW ⟨none, none, some ((0, 0), (10, 10)), none⟩ []).roi_pupil
      = none) :=
  ⟨rfl, by simp [ingest_frame]⟩

/-- Claim C3 (amended) — after each successful frame ingestion the working
frame and the original-frame copy both equal the input downsampled by the
fixed factor 0.5 and are identical to each other, but the two ROI slots
are *preserved* (tracking state does carry over); the ROI slots are
cleared only on the end-of-stream branch of `next_frame`. -/
theorem ingest_frame_spec (cv : CVO) (s : TState) (raw : Image) :
    (ingest_frame cv s raw).frame = some (cv.resize_half raw) ∧
    (ingest_frame cv s raw).orig_image = some (cv.resize_half raw) ∧
    (ingest_frame cv s raw).frame = (ingest_frame cv s raw).orig_image ∧
    (ingest_frame cv s raw).roi_pupil = s.roi_pupil ∧
    (ingest_frame cv s raw).roi_refle = s.roi_refle ∧
    (eof_clear s).roi_pupil = none ∧ (eof_clear s).roi_refle = none :=
  ⟨rfl, rfl, rfl, rfl, rfl, rfl, rfl⟩

lemma get_orig_frame_ok {s : TState} {o : Image} (ho : s.orig_image = some o) :
    get_orig_frame s
      = .ok { s with frame := some o, roi_pupil := none, roi_refle := none } := by
  unfold get_orig_frame
  rw [ho]

lemma track_pupil_some {cv : CVO} {s : TState} {r : Rect}
    (hr : s.roi_pupil = some r) :
    track_pupil cv s =
      match draw_pupil cv s none (some r) true with
      | .ok s' => .ok s'
      | .error .indexError => .ok s
      | .error .attrError => .ok s
      | .error e => .error e := by
  unfold track_pupil
  rw [hr]

lemma track_refle_some {cv : CVO} {s : TState} {r : Rect}
    (hr : s.roi_refle = some r) :
    track_refle cv s =
      match draw_refle cv s none (some r) true with
      | .ok s' => .ok s'
      | .error .indexError => .ok s
      | .error .attrError => .ok s
      | .error e => .error e := by
  unfold track_refle
  rw [hr]

/-- Claim C9 — reset is idempotent: with an original frame present, the
first reset succeeds yielding a state whose frame equals the original copy
with both ROIs cleared, and resetting that state again succeeds and is the
identity on it; with no frame ever loaded, reset raises the precondition
error. -/
theorem reset_idempotent (s : TState) :
    (∀ o, s.orig_image = some o →
      ∃ s₁, get_orig_frame s = .ok s₁ ∧ get_orig_frame s₁ = .ok s₁ ∧
        s₁.frame = some o ∧ s₁.orig_image = some o ∧
        s₁.roi_pupil = none ∧ s₁.roi_refle = none) ∧
    (s.orig_image = none → get_orig_frame s = .error .attrError) := by
  constructor
  · intro o ho
    have ho1 : (⟨some o, s.orig_image, none, none⟩ : TState).orig_image = some o := ho
    exact ⟨⟨some o, s.orig_image, none, none⟩, get_orig_frame_ok ho,
      get_orig_frame_ok ho1, rfl, ho, rfl, rfl⟩
  · intro h
    unfold get_orig_frame
    rw [h]

/-- Witness for C9 at a concrete state with an original frame and a set
pupil ROI. -/
theorem reset_idempotent_witness :
    ∃ s₁, get_orig_frame ⟨none, some [], some ((0, 0), (1, 1)), none⟩ = .ok s₁ ∧
      get_orig_frame s₁ = .ok s₁ ∧ s₁.frame = some [] ∧ s₁.orig_image = some [] ∧
      s₁.roi_pupil = none ∧ s₁.roi_refle = none :=
  (reset_idempotent ⟨none, some [], some ((0, 0), (1, 1)), none⟩).1 [] rfl

/-- Claim C7 — `track_pupil` (resp. `track_refle`) is a no-op when its ROI
slot is unset; when set, it invokes the draw with that ROI, propagating a
successful draw's state and swallowing the not-found (`AttributeError`)
and index (`IndexError`) errors, in which case the state — in particular
the ROI slot — is left unchanged. -/
theorem track_noop_or_swallow (cv : CVO) (s : TState) :
    (s.roi_pupil = none → track_pupil cv s = .ok s) ∧
    (∀ r, s.roi_pupil = some r →
      (∀ s', draw_pupil cv s none (some r) true = .ok s' → track_pupil cv s = .ok s') ∧
      (∀ e, (e = PyErr.attrError ∨ e = PyErr.indexError) →
        draw_pupil cv s none (some r) true = .error e →
        track_pupil cv s = .ok s ∧ s.roi_pupil = some r)) ∧
    (s.roi_refle = none → track_refle cv s = .ok s) ∧
    (∀ r, s.roi_refle = some r →
      (∀ s', draw_refle cv s none (some r) true = .ok s' → track_refle cv s = .ok s') ∧
      (∀ e, (e = PyErr.attrError ∨ e = PyErr.indexError) →
        draw_refle cv s none (some r) true = .error e →
        track_refle cv s = .ok s ∧ s.roi_refle = some r)) := by
  refine ⟨?_, ?_, ?_, ?_⟩
  · intro h
    unfold track_pupil
    rw [h]
  · intro r hr
    constructor
    · intro s' hd
      rw [track_pupil_some hr, hd]
    · rintro e (rfl | rfl) hd
      · rw [track_pupil_some hr, hd]
        exact ⟨rfl, hr⟩
      · rw [track_pupil_some hr, hd]
        exact ⟨rfl, hr⟩
  · intro h
    unfold track_refle
    rw [h]
  · intro r hr
    constructor
    · intro s' hd
      rw [track_refle_some hr, hd]
    · rintro e (rfl | rfl) hd
      · rw [track_refle_some hr, hd]
        exact ⟨rfl, hr⟩
      · rw [track_refle_some hr, hd]
        exact ⟨rfl, hr⟩

lemma draw_pupil_cvE :
    draw_pupil cvE sE none (some ((0, 0), (1, 1))) true = .error .attrError := by
  rw [draw_pupil_eq cvE sE [] (some ((0, 0), (1, 1))) none true rfl]
  simp [pupilCandidates, process_image, cvE]

/-- Witness for C7: with the empty-result oracle `cvE` and a set pupil ROI,
tracking swallows the not-found error and leaves the state (and its ROI)
unchanged. -/
theorem track_noop_or_swallow_witness :
    track_pupil cvE sE = .ok sE ∧ sE.roi_pupil = some ((0, 0), (1, 1)) :=
  ((track_noop_or_swallow cvE sE).2.1 ((0, 0), (1, 1)) rfl).2 PyErr.attrError
    (Or.inl rfl) draw_pupil_cvE

lemma draw_pupil_ok_state {cv : CVO} {s : TState} {i : Option Int}
    {roi : Option Rect} {v : Bool} {s' : TState}
    (h : draw_pupil cv s i roi v = .ok s') :
    ∃ l cnt f, find_pupils cv s roi = .ok l ∧ pyGet l (i.getD 0) = some cnt ∧
      s.frame = some f ∧ s' = drawPupilOk cv s f cnt v := by
  cases hf : s.frame with
  | none =>
    have hfp : find_pupils cv s roi = .error .cvError := by
      unfold find_pupils
      rw [hf]
    unfold draw_pupil at h
    rw [hfp] at h
    exact Except.noConfusion h
  | some f =>
    rw [draw_pupil_eq cv s f roi i v hf] at h
    split_ifs at h with h0
    cases hg : pyGet (pupilCandidates cv f roi) (i.getD 0) with
    | none => rw [hg] at h; exact Except.noConfusion h
    | some cnt =>
      rw [hg] at h
      exact ⟨pupilCandidates cv f roi, cnt, f, find_pupils_eq cv s f roi hf,
        hg, rfl, (Except.ok.inj h).symm⟩

lemma draw_refle_ok_state {cv : CVO} {s : TState} {i : Option Int}
    {roi : Option Rect} {v : Bool} {s' : TState}
    (h : draw_refle cv s i roi v = .ok s') :
    ∃ l cnt f, find_refle cv s roi = .ok l ∧ pyGet l (i.getD 0) = some cnt ∧
      s.frame = some f ∧ s' = drawRefleOk cv s f cnt v := by
  cases hfp : find_refle cv s roi with
  | error e =>
    unfold draw_refle at h
    rw [hfp] at h
    exact Except.noConfusion h
  | ok l =>
    cases hf : s.frame with
    | none =>
      unfold find_refle at hfp
      rw [hf] at hfp
      exact Except.noConfusion hfp
    | some f =>
      rw [draw_refle_eq cv s f roi i v l hf hfp] at h
      split_ifs at h with h0
      cases hg : pyGet l (i.getD 0) with
      | none => rw [hg] at h; exact Except.noConfusion h
      | some cnt =>
        rw [hg] at h
        exact ⟨l, cnt, f, rfl, hg, rfl, (Except.ok.inj h).symm⟩

lemma drawPupilOk_roi (cv : CVO) (s : TState) (f : Image) (cnt : List Pt)
    (v : Bool) :
    (drawPupilOk cv s f cnt v).roi_pupil
      = some (pupilRect (pyInt (cv.fitEllipse cnt).cx, pyInt (cv.fitEllipse cnt).cy)) ∧
    (drawPupilOk cv s f cnt v).roi_refle = s.roi_refle :=
  ⟨rfl, rfl⟩

lemma drawRefleOk_roi (cv : CVO) (s : TState) (f : Image) (cnt : List Pt)
    (v : Bool) :
    (drawRefleOk cv s f cnt v).roi_refle
      = some (refleRect (pyInt (cv.minAreaRect cnt).cx, pyInt (cv.minAreaRect cnt).cy)) ∧
    (drawRefleOk cv s f cnt v).roi_pupil = s.roi_pupil :=
  ⟨rfl, rfl⟩

lemma track_pupil_ok {cv : CVO} {s s' : TState}
    (h : track_pupil cv s = .ok s') :
    s' = s ∨ ∃ r, draw_pupil cv s none (some r) true = .ok s' := by
  cases hr : s.roi_pupil with
  | none =>
    unfold track_pupil at h
    rw [hr] at h
    exact Or.inl (Except.ok.inj h).symm
  | some r =>
    rw [track_pupil_some hr] at h
    cases hd : draw_pupil cv s none (some r) true with
    | ok s₀ =>
      rw [hd] at h
      exact Or.inr ⟨r, hd.trans (congrArg Except.ok (Except.ok.inj h))⟩
    | error e =>
      rw [hd] at h
      cases e with
      | indexError => exact Or.inl (Except.ok.inj h).symm
      | attrError => exact Or.inl (Except.ok.inj h).symm
      | typeError => exact Except.noConfusion h
      | zeroDivError => exact Except.noConfusion h
      | cvError => exact Except.noConfusion h

lemma track_refle_ok {cv : CVO} {s s' : TState}
    (h : track_refle cv s = .ok s') :
    s' = s ∨ ∃ r, draw_refle cv s none (some r) true = .ok s' := by
  cases hr : s.roi_refle with
  | none =>
    unfold track_refle at h
    rw [hr] at h
    exact Or.inl (Except.ok.inj h).symm
  | some r =>
    rw [track_refle_some hr] at h
    cases hd : draw_refle cv s none (some r) true with
    | ok s₀ =>
      rw [hd] at h
      exact Or.inr ⟨r, hd.trans (congrArg Except.ok (Except.ok.inj h))⟩
    | error e =>
      rw [hd] at h
      cases e with
      | indexError => exact Or.inl (Except.ok.inj h).symm
      | attrError => exact Or.inl (Except.ok.inj h).symm
      | typeError => exact Except.noConfusion h
      | zeroDivError => exact Except.noConfusion h
      | cvError => exact Except.noConfusion h

lemma step_roi_shape (cv : CVO) (s : TState) (op : Op) :
    ((step cv s op).roi_pupil = s.roi_pupil ∨ (step cv s op).roi_pupil = none ∨
      ∃ c, (step cv s op).roi_pupil = some (pupilRect c)) ∧
    ((step cv s op).roi_refle = s.roi_refle ∨ (step cv s op).roi_refle = none ∨
      ∃ c, (step cv s op).roi_refle = some (refleRect c)) := by
  cases op with
  | ingest raw => exact ⟨Or.inl rfl, Or.inl rfl⟩
  | eofClear => exact ⟨Or.inr (Or.inl rfl), Or.inr (Or.inl rfl)⟩
  | reset =>
    simp only [step]
    cases hg : get_orig_frame s with
    | error e => exact ⟨Or.inl rfl, Or.inl rfl⟩
    | ok s' =>
      unfold get_orig_frame at hg
      cases ho : s.orig_image with
      | none => rw [ho] at hg; exact Except.noConfusion hg
      | some o =>
        rw [ho] at hg
        rw [← Except.ok.inj hg]
        exact ⟨Or.inr (Or.inl rfl), Or.inr (Or.inl rfl)⟩
  | drawP i r v =>
    simp only [step]
    cases hd : draw_pupil cv s i r v with
    | error e => exact ⟨Or.inl rfl, Or.inl rfl⟩
    | ok s' =>
      obtain ⟨l, cnt, f, -, -, -, hs'⟩ := draw_pupil_ok_state hd
      subst hs'
      exact ⟨Or.inr (Or.inr ⟨_, (drawPupilOk_roi cv s f cnt v).1⟩),
        Or.inl (drawPupilOk_roi cv s f cnt v).2⟩
  | drawR i r v =>
    simp only [step]
    cases hd : draw_refle cv s i r v with
    | error e => exact ⟨Or.inl rfl, Or.inl rfl⟩
    | ok s' =>
      obtain ⟨l, cnt, f, -, -, -, hs'⟩ := draw_refle_ok_state hd
      subst hs'
      exact ⟨Or.inl (drawRefleOk_roi cv s f cnt v).2,
        Or.inr (Or.inr ⟨_, (drawRefleOk_roi cv s f cnt v).1⟩)⟩
  | trackP =>
    simp only [step]
    cases ht : track_pupil cv s with
    | error e => exact ⟨Or.inl rfl, Or.inl rfl⟩
    | ok s' =>
      rcases track_pupil_ok ht with rfl | ⟨r, hd⟩
      · exact ⟨Or.inl rfl, Or.inl rfl⟩
      · obtain ⟨l, cnt, f, -, -, -, hs'⟩ := draw_pupil_ok_state hd
        subst hs'
        exact ⟨Or.inr (Or.inr ⟨_, (drawPupilOk_roi cv s f cnt true).1⟩),
          Or.inl (drawPupilOk_roi cv s f cnt true).2⟩
  | trackR =>
    simp only [step]
    cases ht : track_refle cv s with
    | error e => exact ⟨Or.inl rfl, Or.inl rfl⟩
    | ok s' =>
      rcases track_refle_ok ht with rfl | ⟨r, hd⟩
      · exact ⟨Or.inl rfl, Or.inl rfl⟩
      · obtain ⟨l, cnt, f, -, -, -, hs'⟩ := draw_refle_ok_state hd
        subst hs'
        exact ⟨Or.inl (drawRefleOk_roi cv s f cnt true).2,
          Or.inr (Or.inr ⟨_, (drawRefleOk_roi cv s f cnt true).1⟩)⟩

lemma roiInv_step (cv : CVO) (s : TState) (op : Op) (h : roiInv s) :
    roiInv (step cv s op) := by
  obtain ⟨hp, hr⟩ := h
  obtain ⟨cp, cr⟩ := step_roi_shape cv s op
  constructor
  · intro r hrr
    rcases cp with hc | hc | ⟨c, hc⟩
    · exact hp r (hc ▸ hrr)
    · rw [hc] at hrr; exact Option.noConfusion hrr
    · rw [hc] at hrr; exact ⟨c, (Option.some.inj hrr).symm⟩
  · intro r hrr
    rcases cr with hc | hc | ⟨c, hc⟩
    · exact hr r (hc ▸ hrr)
    · rw [hc] at hrr; exact Option.noConfusion hrr
    · rw [hc] at hrr; exact ⟨c, (Option.some.inj hrr).symm⟩

lemma roiInv_run (cv : CVO) (ops : List Op) :
    ∀ s, roiInv s → roiInv (run cv s ops) := by
  induction ops with
  | nil => intro s h; exact h
  | cons op rest ih =>
    intro s h
    exact ih _ (roiInv_step cv s op h)

/-- Claim C5 — ROI shape invariant and establishment: starting from the
fresh tracker, after any sequence of operations a set pupil ROI is exactly
the 200×200 rectangle around some integer center and a set reflection ROI
exactly the 30×30 rectangle around some integer center; moreover every
successful `draw_pupil` sets the pupil ROI to exactly the 200×200
rectangle centered on the integer-truncated center of the ellipse fitted
to the selected candidate, and every successful `draw_refle` sets the
reflection ROI to exactly the 30×30 rectangle centered on the truncated
minimum-area-rectangle center — in both cases regardless of `verbose`, and
without touching the other ROI slot. -/
theorem roi_invariant (cv : CVO) :
    (∀ ops, roiInv (run cv initState ops)) ∧
    (∀ s i roi v s', draw_pupil cv s i roi v = .ok s' →
      ∃ l cnt, find_pupils cv s roi = .ok l ∧ pyGet l (i.getD 0) = some cnt ∧
        s'.roi_pupil = some (pupilRect (pyInt (cv.fitEllipse cnt).cx,
          pyInt (cv.fitEllipse cnt).cy)) ∧ s'.roi_refle = s.roi_refle) ∧
    (∀ s i roi v s', draw_refle cv s i roi v = .ok s' →
      ∃ l cnt, find_refle cv s roi = .ok l ∧ pyGet l (i.getD 0) = some cnt ∧
        s'.roi_refle = some (refleRect (pyInt (cv.minAreaRect cnt).cx,
          pyInt (cv.minAreaRect cnt).cy)) ∧ s'.roi_pupil = s.roi_pupil) := by
  refine ⟨?_, ?_, ?_⟩
  · intro ops
    exact roiInv_run cv ops initState
      ⟨fun r h => Option.noConfusion h, fun r h => Option.noConfusion h⟩
  · intro s i roi v s' hd
    obtain ⟨l, cnt, f, hfp, hg, -, hs'⟩ := draw_pupil_ok_state hd
    subst hs'
    exact ⟨l, cnt, hfp, hg, (drawPupilOk_roi cv s f cnt v).1,
      (drawPupilOk_roi cv s f cnt v).2⟩
  · intro s i roi v s' hd
    obtain ⟨l, cnt, f, hfp, hg, -, hs'⟩ := draw_refle_ok_state hd
    subst hs'
    exact ⟨l, cnt, hfp, hg, (drawRefleOk_roi cv s f cnt v).1,
      (drawRefleOk_roi cv s f cnt v).2⟩

lemma draw_pupil_cvW_ok :
    draw_pupil cvW sW none none true = .ok (drawPupilOk cvW sW [] pupilCntA true) := by
  rw [draw_pupil_eq cvW sW [] none none true rfl]
  have hpc : pupilCandidates cvW [] none = [pupilCntA, pupilCntB] := by
    have h := find_pupils_cvW
    rw [find_pupils_eq cvW sW [] none rfl] at h
    exact Except.ok.inj h
  rw [hpc]
  simp [pyGet]

/-- Witness for C5: the invariant holds after a concrete run, and a
concrete successful draw establishes the 200×200 pupil rectangle. -/
theorem roi_invariant_witness :
    roiInv (run cvW initState [Op.ingest [], Op.drawP none none true]) ∧
    (∃ l cnt, find_pupils cvW sW none = .ok l ∧
      pyGet l ((none : Option Int).getD 0) = some cnt ∧
      (drawPupilOk cvW sW [] pupilCntA true).roi_pupil
        = some (pupilRect (pyInt (cvW.fitEllipse cnt).cx,
            pyInt (cvW.fitEllipse cnt).cy)) ∧
      (drawPupilOk cvW sW [] pupilCntA true).roi_refle = sW.roi_refle) :=
  ⟨(roi_invariant cvW).1 [Op.ingest [], Op.drawP none none true],
    (roi_invariant cvW).2.1 sW none none true _ draw_pupil_cvW_ok⟩

end PupilTrack
